import Mathlib

/-!
Verification of the MixTape YouTube resolution service
(`src/services/youtube.js`, reproduced in `src/README.md`).

The development shallowly embeds the service in Lean:
* JS strings are Lean `String`s (character lists); `toLowerCase`,
  `includes` and the duration regex are modelled character by character
  (ASCII case mapping, which covers every string the service builds).
* JS numbers holding millisecond durations are `ℤ`; match scores, which
  involve the division `durationDiff / 15000`, are `ℚ` (exact arithmetic
  in place of IEEE doubles).
* The stateful service (in-memory cache `Map`, key-pool cursor, durable
  `youtube_cache` table) is explicit state passing over `SearchState`;
  network calls are abstracted by a provider oracle giving the outcome
  of each `searchWithYouTube` call.
-/

namespace MixTape

/-! ### JS string primitives -/

/-- JS `String.prototype.toLowerCase()` restricted to ASCII case mapping
(`Char.toLower` lowers exactly `A`-`Z`). -/
def jsToLower (s : String) : String := String.mk (s.data.map Char.toLower)

/-- Whether `needle` matches at the head of `hay` (character-wise). -/
def matchesAt : List Char → List Char → Bool
  | [], _ => true
  | _ :: _, [] => false
  | a :: as, b :: bs => a = b && matchesAt as bs

/-- Whether `needle` occurs as a contiguous subsequence of `hay`. -/
def occursIn (needle : List Char) : List Char → Bool
  | [] => needle.isEmpty
  | c :: rest => matchesAt needle (c :: rest) || occursIn needle rest

/-- JS `hay.includes(searchStr)`. -/
def strIncludes (hay searchStr : String) : Bool := occursIn searchStr.data hay.data

/-! ### ISO-8601 duration parsing (`parseISO8601Duration`)

The source matches `duration` against the unanchored JS regex
`/PT(?:(\d+)H)?(?:(\d+)M)?(?:(\d+)S)?/` and computes
`(hours*3600 + minutes*60 + seconds) * 1000`, each absent group read as 0.
Because every group is optional, the regex succeeds at the first position
where the literal `PT` occurs, and each optional group consumes a maximal
nonempty digit run iff it is immediately followed by the group's letter. -/

/-- Digit string to number, as `parseInt(digits, 10)`. -/
def digitsToNat (ds : List Char) : Nat :=
  ds.foldl (fun a c => a * 10 + (c.toNat - 48)) 0

/-- Split a maximal leading digit run off a character list. -/
def spanDigits : List Char → List Char × List Char
  | [] => ([], [])
  | c :: cs =>
    if c.isDigit then
      let r := spanDigits cs
      (c :: r.1, r.2)
    else ([], c :: cs)

/-- One optional regex group `(?:(\d+)X)?` at the current position: consume a
nonempty digit run followed by `letter`, or leave the position unchanged. -/
def matchComp (letter : Char) (cs : List Char) : Option Nat × List Char :=
  let sp := spanDigits cs
  match sp.2 with
  | [] => (none, cs)
  | c :: rest =>
    if c = letter ∧ sp.1 ≠ [] then (some (digitsToNat sp.1), rest) else (none, cs)

/-- First occurrence of the literal `PT`; returns the suffix after it
(the position where the optional groups start). -/
def findPT : List Char → Option (List Char)
  | [] => none
  | c :: cs =>
    if c = 'P' ∧ cs.head? = some 'T' then some cs.tail else findPT cs

/-- Source `parseISO8601Duration(duration)`: milliseconds, or 0 when
the regex does not match (no `PT` anywhere in the string). -/
def parseISO8601Duration (duration : String) : Nat :=
  match findPT duration.data with
  | none => 0
  | some rest =>
    let h := matchComp 'H' rest
    let m := matchComp 'M' h.2
    let s := matchComp 'S' m.2
    (h.1.getD 0 * 3600 + m.1.getD 0 * 60 + s.1.getD 0) * 1000

example : parseISO8601Duration "PT4M13S" = 253000 := by decide
example : parseISO8601Duration "PT1H" = 3600000 := by decide
example : parseISO8601Duration "PT" = 0 := by decide
example : parseISO8601Duration "4M13S" = 0 := by decide
example : parseISO8601Duration "XPT1H" = 3600000 := by decide
example : parseISO8601Duration "PT1S2M" = 1000 := by decide

/-! ### Match scoring (`findBestMatch`, `findBestMatchInvidious`) -/

/-- The unit returned by the scorers, stored in both caches, and handed back
to callers: `{ videoId, title, duration, thumbnailUrl, channelTitle }`.
`duration` is in milliseconds; `thumbnailUrl` may be absent (JS
`undefined`), hence `Option`. -/
structure MatchResult where
  videoId : String
  title : String
  duration : ℤ
  thumbnailUrl : Option String
  channelTitle : String
  deriving DecidableEq, Repr

/-- A YouTube Data API item as `findBestMatch` reads it: `video.id`,
`video.contentDetails.duration` (ISO-8601 string), `video.snippet.title`,
`video.snippet.channelTitle`, and the two thumbnail URLs the source
consults (`snippet.thumbnails?.medium?.url`, `...?.default?.url`,
`none` when the optional chain yields `undefined`). -/
structure YTVideo where
  id : String
  duration : String
  title : String
  channelTitle : String
  thumbnailMedium : Option String
  thumbnailDefault : Option String
  deriving DecidableEq, Repr

/-- An Invidious search result as `findBestMatchInvidious` reads it:
`videoId`, `title`, `lengthSeconds`, `author`. -/
structure InvVideo where
  videoId : String
  title : String
  lengthSeconds : ℤ
  author : String
  deriving DecidableEq, Repr

/-- JS `a || b` on two optionally-present strings (a falsy left operand —
`undefined` or the empty string — selects the right operand). -/
def jsOrStr : Option String → Option String → Option String
  | some s, b => if s = "" then b else some s
  | none, b => b

/-- The duration component of the score:
`100 - (durationDiff / DURATION_TOLERANCE_MS) * 50`. -/
def baseScore (durationDiff : ℤ) : ℚ :=
  100 - ((durationDiff : ℚ) / 15000) * 50

/-- The bonus terms `[trackName, artistName, 'official', 'audio',
'music video']` (the first two lowercased), each worth +10 when found in the
candidate title. -/
def searchTermsFor (trackName artistName : String) : List String :=
  [jsToLower trackName, jsToLower artistName, "official", "audio", "music video"]

/-- The penalty terms, each worth -20 when found in the candidate title. -/
def badTerms : List String :=
  ["cover", "remix", "live", "karaoke", "instrumental", "lyrics"]

/-- The score the loop body of both scorers assigns to a candidate of
duration `videoDurationMs` and title `videoTitle`: base score from the
duration difference, +10 per bonus term in the lowercased title, -20 per
penalty term. (The two source functions carry this code verbatim.) -/
def matchScore (targetDurationMs : ℤ) (trackName artistName : String)
    (videoDurationMs : ℤ) (videoTitle : String) : ℚ :=
  let durationDiff := |videoDurationMs - targetDurationMs|
  let title := jsToLower videoTitle
  let s1 := (searchTermsFor trackName artistName).foldl
    (fun sc term => if strIncludes title term then sc + 10 else sc)
    (baseScore durationDiff)
  badTerms.foldl (fun sc term => if strIncludes title term then sc - 20 else sc) s1

/-- Value of `this.parseISO8601Duration(video.contentDetails.duration)` as `ℤ`. -/
def ytDurationMs (video : YTVideo) : ℤ := (parseISO8601Duration video.duration : ℤ)

/-- Score of a YouTube API candidate in `findBestMatch`. -/
def ytScore (targetDurationMs : ℤ) (trackName artistName : String) (video : YTVideo) : ℚ :=
  matchScore targetDurationMs trackName artistName (ytDurationMs video) video.title

/-- The `bestMatch` object `findBestMatch` builds from a winning candidate. -/
def mkYTResult (video : YTVideo) : MatchResult :=
  { videoId := video.id
    title := video.title
    duration := ytDurationMs video
    thumbnailUrl := jsOrStr video.thumbnailMedium video.thumbnailDefault
    channelTitle := video.channelTitle }

/-- The body of the `findBestMatch` loop once the tolerance filter has been
passed: compare the candidate's score against the running best (strict `>`)
and update on improvement. -/
def fbmScoreStep (targetDurationMs : ℤ) (trackName artistName : String)
    (st : Option MatchResult × ℚ) (video : YTVideo) : Option MatchResult × ℚ :=
  let score := ytScore targetDurationMs trackName artistName video
  if st.2 < score then (some (mkYTResult video), score) else st

/-- One iteration of the `findBestMatch` loop: `continue` (state unchanged)
when the duration difference exceeds the ±15000 ms tolerance. -/
def fbmStep (targetDurationMs : ℤ) (trackName artistName : String)
    (st : Option MatchResult × ℚ) (video : YTVideo) : Option MatchResult × ℚ :=
  if 15000 < |ytDurationMs video - targetDurationMs| then st
  else fbmScoreStep targetDurationMs trackName artistName st video

/-- Source `findBestMatch(videos, targetDurationMs, trackName, artistName)`:
fold of the loop over the candidates starting from
`bestMatch = null, bestScore = 0`. -/
def findBestMatch (videos : List YTVideo) (targetDurationMs : ℤ)
    (trackName artistName : String) : Option MatchResult :=
  (videos.foldl (fbmStep targetDurationMs trackName artistName) (none, 0)).1

/-- Value of `video.lengthSeconds * 1000` from `findBestMatchInvidious`. -/
def invDurationMs (video : InvVideo) : ℤ := video.lengthSeconds * 1000

/-- Score of an Invidious candidate in `findBestMatchInvidious`. -/
def invScore (targetDurationMs : ℤ) (trackName artistName : String) (video : InvVideo) : ℚ :=
  matchScore targetDurationMs trackName artistName (invDurationMs video) video.title

/-- The `bestMatch` object `findBestMatchInvidious` builds (thumbnail URL is
synthesized from the video id, channel comes from `author`). -/
def mkInvResult (video : InvVideo) : MatchResult :=
  { videoId := video.videoId
    title := video.title
    duration := invDurationMs video
    thumbnailUrl := some ("https://i.ytimg.com/vi/" ++ video.videoId ++ "/mqdefault.jpg")
    channelTitle := video.author }

/-- One iteration of the `findBestMatchInvidious` loop. -/
def fbmInvStep (targetDurationMs : ℤ) (trackName artistName : String)
    (st : Option MatchResult × ℚ) (video : InvVideo) : Option MatchResult × ℚ :=
  if 15000 < |invDurationMs video - targetDurationMs| then st
  else
    let score := invScore targetDurationMs trackName artistName video
    if st.2 < score then (some (mkInvResult video), score) else st

/-- Source `findBestMatchInvidious(videos, targetDurationMs, trackName, artistName)`. -/
def findBestMatchInvidious (videos : List InvVideo) (targetDurationMs : ℤ)
    (trackName artistName : String) : Option MatchResult :=
  (videos.foldl (fbmInvStep targetDurationMs trackName artistName) (none, 0)).1

/-! #### Evaluating scores

The two `forEach` scans add `+10` per bonus term and `-20` per penalty term,
so a score is the base score plus `10·(bonus hits) − 20·(penalty hits)`. -/

theorem foldl_add_of_countP (p : String → Bool) (c : ℚ) :
    ∀ (l : List String) (s : ℚ),
      l.foldl (fun sc term => if p term then sc + c else sc) s = s + c * l.countP p := by
  intro l
  induction l with
  | nil => intro s; simp
  | cons hd tl ih =>
    intro s
    by_cases h : p hd = true
    · simp only [List.foldl_cons, if_pos h, ih, List.countP_cons_of_pos _ _ h]
      push_cast
      ring
    · simp only [List.foldl_cons, if_neg h, ih, List.countP_cons_of_neg _ _ h]

theorem foldl_sub_of_countP (p : String → Bool) (c : ℚ) :
    ∀ (l : List String) (s : ℚ),
      l.foldl (fun sc term => if p term then sc - c else sc) s = s - c * l.countP p := by
  intro l
  induction l with
  | nil => intro s; simp
  | cons hd tl ih =>
    intro s
    by_cases h : p hd = true
    · simp only [List.foldl_cons, if_pos h, ih, List.countP_cons_of_pos _ _ h]
      push_cast
      ring
    · simp only [List.foldl_cons, if_neg h, ih, List.countP_cons_of_neg _ _ h]

/-- Closed form of `matchScore`: base score plus 10 per bonus term found in
the lowercased title minus 20 per penalty term found. -/
theorem matchScore_eq (targetDurationMs : ℤ) (trackName artistName : String)
    (videoDurationMs : ℤ) (videoTitle : String) :
    matchScore targetDurationMs trackName artistName videoDurationMs videoTitle =
      baseScore |videoDurationMs - targetDurationMs|
        + 10 * ((searchTermsFor trackName artistName).countP
            (fun term => strIncludes (jsToLower videoTitle) term))
        - 20 * (badTerms.countP (fun term => strIncludes (jsToLower videoTitle) term)) := by
  simp only [matchScore, foldl_add_of_countP, foldl_sub_of_countP]

-- Scoring example from the spec (§8): candidate A scores 140, candidate B
-- scores 250/3 + 10 - 20, and A wins.
example :
    ytScore 200000 "Track" "Artist"
      ⟨"idA", "PT3M20S", "Artist - Track (Official Audio)", "ch", none, none⟩ = 140 := by
  rw [ytScore, matchScore_eq]
  rw [show ytDurationMs ⟨"idA", "PT3M20S", "Artist - Track (Official Audio)", "ch", none, none⟩
      = 200000 from by decide]
  rw [show (searchTermsFor "Track" "Artist").countP
      (fun term => strIncludes (jsToLower "Artist - Track (Official Audio)") term) = 4 from by
    decide]
  rw [show badTerms.countP
      (fun term => strIncludes (jsToLower "Artist - Track (Official Audio)") term) = 0 from by
    decide]
  norm_num [baseScore]

/-! #### The selection discipline of the `findBestMatch` fold

Running the loop from an arbitrary state `(b, s)` either leaves the state
unchanged (every in-tolerance candidate scores `≤ s`) or ends at the first
in-tolerance candidate whose score exceeds `s` and is never strictly beaten
afterwards. -/

theorem fbm_foldl_spec (targetDurationMs : ℤ) (trackName artistName : String) :
    ∀ (videos : List YTVideo) (b : Option MatchResult) (s : ℚ),
      (videos.foldl (fbmStep targetDurationMs trackName artistName) (b, s) = (b, s) ∧
        ∀ v ∈ videos, |ytDurationMs v - targetDurationMs| ≤ 15000 →
          ytScore targetDurationMs trackName artistName v ≤ s)
      ∨ (∃ pre v post, videos = pre ++ v :: post ∧
          |ytDurationMs v - targetDurationMs| ≤ 15000 ∧
          s < ytScore targetDurationMs trackName artistName v ∧
          videos.foldl (fbmStep targetDurationMs trackName artistName) (b, s)
            = (some (mkYTResult v), ytScore targetDurationMs trackName artistName v) ∧
          (∀ u ∈ pre, |ytDurationMs u - targetDurationMs| ≤ 15000 →
            ytScore targetDurationMs trackName artistName u
              < ytScore targetDurationMs trackName artistName v) ∧
          (∀ u ∈ post, |ytDurationMs u - targetDurationMs| ≤ 15000 →
            ytScore targetDurationMs trackName artistName u
              ≤ ytScore targetDurationMs trackName artistName v)) := by
  intro videos
  induction videos with
  | nil =>
    intro b s
    left
    exact ⟨rfl, by simp⟩
  | cons v rest ih =>
    intro b s
    by_cases htol : 15000 < |ytDurationMs v - targetDurationMs|
    · have hstep : fbmStep targetDurationMs trackName artistName (b, s) v = (b, s) := by
        rw [fbmStep, if_pos htol]
      rcases ih b s with ⟨heq, hall⟩ | ⟨pre, w, post, hvs, hw, hsw, heq, hpre, hpost⟩
      · left
        refine ⟨by rw [List.foldl_cons, hstep, heq], ?_⟩
        intro u hu htolu
        rcases List.mem_cons.mp hu with rfl | hu'
        · exact absurd htolu (not_le.mpr htol)
        · exact hall u hu' htolu
      · right
        refine ⟨v :: pre, w, post, by rw [hvs]; rfl, hw, hsw,
          by rw [List.foldl_cons, hstep, heq], ?_, hpost⟩
        intro u hu htolu
        rcases List.mem_cons.mp hu with rfl | hu'
        · exact absurd htolu (not_le.mpr htol)
        · exact hpre u hu' htolu
    · push_neg at htol
      by_cases hlt : s < ytScore targetDurationMs trackName artistName v
      · have hstep : fbmStep targetDurationMs trackName artistName (b, s) v
            = (some (mkYTResult v), ytScore targetDurationMs trackName artistName v) := by
          rw [fbmStep, if_neg (not_lt.mpr htol), fbmScoreStep]
          exact if_pos hlt
        rcases ih (some (mkYTResult v)) (ytScore targetDurationMs trackName artistName v) with
          ⟨heq, hall⟩ | ⟨pre, w, post, hvs, hw, hsw, heq, hpre, hpost⟩
        · right
          exact ⟨[], v, rest, rfl, htol, hlt,
            by rw [List.foldl_cons, hstep, heq], by simp, hall⟩
        · right
          refine ⟨v :: pre, w, post, by rw [hvs]; rfl, hw, lt_trans hlt hsw,
            by rw [List.foldl_cons, hstep, heq], ?_, hpost⟩
          intro u hu htolu
          rcases List.mem_cons.mp hu with rfl | hu'
          · exact hsw
          · exact hpre u hu' htolu
      · have hstep : fbmStep targetDurationMs trackName artistName (b, s) v = (b, s) := by
          rw [fbmStep, if_neg (not_lt.mpr htol), fbmScoreStep]
          exact if_neg hlt
        rcases ih b s with ⟨heq, hall⟩ | ⟨pre, w, post, hvs, hw, hsw, heq, hpre, hpost⟩
        · left
          refine ⟨by rw [List.foldl_cons, hstep, heq], ?_⟩
          intro u hu htolu
          rcases List.mem_cons.mp hu with rfl | hu'
          · exact not_lt.mp hlt
          · exact hall u hu' htolu
        · right
          refine ⟨v :: pre, w, post, by rw [hvs]; rfl, hw, hsw,
            by rw [List.foldl_cons, hstep, heq], ?_, hpost⟩
          intro u hu htolu
          rcases List.mem_cons.mp hu with rfl | hu'
          · exact lt_of_le_of_lt (not_lt.mp hlt) hsw
          · exact hpre u hu' htolu

/-- Claim C1: for every candidate list, target duration, track name and
artist name, `findBestMatch` (1) returns `none` when no candidate survives
the ±15000 ms duration-tolerance filter, (2) returns `none` when every
surviving candidate scores `≤ 0` (the running best score starts at 0, so
such a candidate is never selected even if it is the only survivor),
(3) any returned match is built from the first in-tolerance candidate
attaining the strictly highest positive score — every earlier in-tolerance
candidate scores strictly less (ties keep the first-encountered candidate,
strict `>` comparison) and every later one scores no more — and (4) a match
is returned whenever some in-tolerance candidate scores `> 0`. -/
theorem findBestMatch_first_strict_max (videos : List YTVideo) (targetDurationMs : ℤ)
    (trackName artistName : String) :
    ((∀ v ∈ videos, 15000 < |ytDurationMs v - targetDurationMs|) →
        findBestMatch videos targetDurationMs trackName artistName = none)
    ∧ ((∀ v ∈ videos, |ytDurationMs v - targetDurationMs| ≤ 15000 →
          ytScore targetDurationMs trackName artistName v ≤ 0) →
        findBestMatch videos targetDurationMs trackName artistName = none)
    ∧ (∀ m, findBestMatch videos targetDurationMs trackName artistName = some m →
        ∃ pre v post, videos = pre ++ v :: post ∧
          |ytDurationMs v - targetDurationMs| ≤ 15000 ∧
          0 < ytScore targetDurationMs trackName artistName v ∧
          m = mkYTResult v ∧
          (∀ u ∈ pre, |ytDurationMs u - targetDurationMs| ≤ 15000 →
            ytScore targetDurationMs trackName artistName u
              < ytScore targetDurationMs trackName artistName v) ∧
          (∀ u ∈ post, |ytDurationMs u - targetDurationMs| ≤ 15000 →
            ytScore targetDurationMs trackName artistName u
              ≤ ytScore targetDurationMs trackName artistName v))
    ∧ ((∃ v ∈ videos, |ytDurationMs v - targetDurationMs| ≤ 15000 ∧
          0 < ytScore targetDurationMs trackName artistName v) →
        ∃ m, findBestMatch videos targetDurationMs trackName artistName = some m) := by
  refine ⟨?_, ?_, ?_, ?_⟩
  · intro hall
    rcases fbm_foldl_spec targetDurationMs trackName artistName videos none 0 with
      ⟨heq, _⟩ | ⟨pre, w, post, hvs, hw, _, _, _, _⟩
    · rw [findBestMatch, heq]
    · exact absurd hw (not_le.mpr (hall w (by rw [hvs]; simp)))
  · intro hall
    rcases fbm_foldl_spec targetDurationMs trackName artistName videos none 0 with
      ⟨heq, _⟩ | ⟨pre, w, post, hvs, hw, hsw, _, _, _⟩
    · rw [findBestMatch, heq]
    · exact absurd hsw (not_lt.mpr (hall w (by rw [hvs]; simp) hw))
  · intro m hm
    rcases fbm_foldl_spec targetDurationMs trackName artistName videos none 0 with
      ⟨heq, _⟩ | ⟨pre, w, post, hvs, hw, hsw, heq, hpre, hpost⟩
    · rw [findBestMatch, heq] at hm
      exact absurd hm (by simp)
    · rw [findBestMatch, heq] at hm
      exact ⟨pre, w, post, hvs, hw, hsw, (Option.some_injective _ hm).symm, hpre, hpost⟩
  · rintro ⟨v, hv, htolv, hsv⟩
    rcases fbm_foldl_spec targetDurationMs trackName artistName videos none 0 with
      ⟨_, hall⟩ | ⟨pre, w, post, _, _, _, heq, _, _⟩
    · exact absurd hsv (not_lt.mpr (hall v hv htolv))
    · exact ⟨mkYTResult w, by rw [findBestMatch, heq]⟩

/-- Witness for C1, instantiating each hypothesis: a list whose only
candidate is one hour off target yields `none`; over an empty list every
surviving candidate vacuously scores `≤ 0` and the result is `none`; a
perfect-duration candidate (score 100) is returned and decomposes as the
first strict maximum; and the existence of a positively-scoring survivor
forces a returned match. -/
theorem findBestMatch_first_strict_max_witness :
    findBestMatch [⟨"far", "PT1H", "t", "c", none, none⟩] 0 "a" "b" = none
    ∧ findBestMatch [] 0 "a" "b" = none
    ∧ (∃ pre v post, [(⟨"id0", "PT0S", "x", "c", none, none⟩ : YTVideo)] = pre ++ v :: post ∧
        |ytDurationMs v - 0| ≤ 15000 ∧
        0 < ytScore 0 "q" "z" v ∧
        mkYTResult ⟨"id0", "PT0S", "x", "c", none, none⟩ = mkYTResult v ∧
        (∀ u ∈ pre, |ytDurationMs u - 0| ≤ 15000 →
          ytScore 0 "q" "z" u < ytScore 0 "q" "z" v) ∧
        (∀ u ∈ post, |ytDurationMs u - 0| ≤ 15000 →
          ytScore 0 "q" "z" u ≤ ytScore 0 "q" "z" v))
    ∧ (∃ m, findBestMatch [⟨"id0", "PT0S", "x", "c", none, none⟩] 0 "q" "z" = some m) := by
  have hscore : ytScore 0 "q" "z" ⟨"id0", "PT0S", "x", "c", none, none⟩ = 100 := by
    rw [ytScore, matchScore_eq]
    rw [show ytDurationMs ⟨"id0", "PT0S", "x", "c", none, none⟩ = 0 from by decide]
    rw [show (searchTermsFor "q" "z").countP
        (fun term => strIncludes (jsToLower "x") term) = 0 from by decide]
    rw [show badTerms.countP (fun term => strIncludes (jsToLower "x") term) = 0 from by decide]
    norm_num [baseScore]
  have heval : findBestMatch [⟨"id0", "PT0S", "x", "c", none, none⟩] 0 "q" "z"
      = some (mkYTResult ⟨"id0", "PT0S", "x", "c", none, none⟩) := by
    rw [findBestMatch, List.foldl_cons, List.foldl_nil, fbmStep,
      if_neg (by decide : ¬ (15000 : ℤ) < |ytDurationMs ⟨"id0", "PT0S", "x", "c", none, none⟩ - 0|),
      fbmScoreStep]
    rw [if_pos (by rw [hscore]; norm_num : ((none : Option MatchResult), (0 : ℚ)).2
      < ytScore 0 "q" "z" ⟨"id0", "PT0S", "x", "c", none, none⟩)]
  refine ⟨?_, ?_, ?_, ?_⟩
  · exact (findBestMatch_first_strict_max _ _ _ _).1 (by decide)
  · exact (findBestMatch_first_strict_max [] 0 "a" "b").2.1 (by simp)
  · exact (findBestMatch_first_strict_max _ _ _ _).2.2.1 _ heval
  · exact (findBestMatch_first_strict_max [⟨"id0", "PT0S", "x", "c", none, none⟩] 0 "q" "z").2.2.2
      ⟨⟨"id0", "PT0S", "x", "c", none, none⟩, by simp, by decide, by rw [hscore]; norm_num⟩

/-- Claim C5: a candidate whose absolute duration difference exceeds
15000 ms is excluded from scoring entirely — deleting it from the candidate
list (anywhere in it) does not change the result of `findBestMatch` — while
a candidate at exactly 15000 ms difference is included (its loop iteration
runs the scoring body rather than `continue`) with base score exactly 50;
the base-score formula is `100 − (durationDiffMs / 15000) * 50`. -/
theorem findBestMatch_tolerance_boundary (targetDurationMs : ℤ)
    (trackName artistName : String) (pre post : List YTVideo) (v : YTVideo) :
    (15000 < |ytDurationMs v - targetDurationMs| →
      findBestMatch (pre ++ v :: post) targetDurationMs trackName artistName
        = findBestMatch (pre ++ post) targetDurationMs trackName artistName)
    ∧ (|ytDurationMs v - targetDurationMs| = 15000 →
        (∀ st, fbmStep targetDurationMs trackName artistName st v
          = fbmScoreStep targetDurationMs trackName artistName st v)
        ∧ baseScore |ytDurationMs v - targetDurationMs| = 50)
    ∧ (∀ d : ℤ, baseScore d = 100 - ((d : ℚ) / 15000) * 50) := by
  refine ⟨?_, ?_, fun d => rfl⟩
  · intro h
    rw [findBestMatch, findBestMatch, List.foldl_append, List.foldl_append, List.foldl_cons,
      fbmStep, if_pos h]
  · intro h
    refine ⟨fun st => by rw [fbmStep, if_neg (by rw [h]; exact lt_irrefl _)], ?_⟩
    rw [h, baseScore]
    norm_num

/-- Witness for C5: a 215-second candidate against a 199999 ms target
(difference 15001 ms) is dropped without affecting the result, and against a
200000 ms target (difference exactly 15000 ms) it reaches the scoring body
with base score 50. -/
theorem findBestMatch_tolerance_boundary_witness :
    (findBestMatch [⟨"idX", "PT3M35S", "T", "C", none, none⟩] 199999 "a" "b"
      = findBestMatch [] 199999 "a" "b")
    ∧ ((∀ st, fbmStep 200000 "a" "b" st ⟨"idX", "PT3M35S", "T", "C", none, none⟩
          = fbmScoreStep 200000 "a" "b" st ⟨"idX", "PT3M35S", "T", "C", none, none⟩)
        ∧ baseScore |ytDurationMs ⟨"idX", "PT3M35S", "T", "C", none, none⟩ - 200000| = 50) := by
  constructor
  · exact (findBestMatch_tolerance_boundary 199999 "a" "b" [] []
      ⟨"idX", "PT3M35S", "T", "C", none, none⟩).1 (by decide)
  · exact (findBestMatch_tolerance_boundary 200000 "a" "b" [] []
      ⟨"idX", "PT3M35S", "T", "C", none, none⟩).2.1 (by decide)

/-! ### C8: the Invidious scorer against the primary scorer -/

/-- The correspondence the claim assumes between a YouTube API candidate and
its mirror-shape counterpart: same video id, same title, and the mirror's
`lengthSeconds * 1000` equal to the parsed ISO-8601 duration. -/
def shapeCorresponds (y : YTVideo) (v : InvVideo) : Prop :=
  v.videoId = y.id ∧ v.title = y.title ∧ invDurationMs v = ytDurationMs y

/-- Claim C8 (auxiliary): the two folds run in lockstep — from states
agreeing on the running score and on the video id of the running best
candidate, corresponding lists lead to final states that agree likewise. -/
theorem fbm_inv_lockstep (targetDurationMs : ℤ) (trackName artistName : String) :
    ∀ (yt : List YTVideo) (inv : List InvVideo), List.Forall₂ shapeCorresponds yt inv →
      ∀ (b₁ b₂ : Option MatchResult) (s : ℚ), b₁.map MatchResult.videoId = b₂.map MatchResult.videoId →
        ((yt.foldl (fbmStep targetDurationMs trackName artistName) (b₁, s)).1.map MatchResult.videoId
          = (inv.foldl (fbmInvStep targetDurationMs trackName artistName) (b₂, s)).1.map MatchResult.videoId)
        ∧ (yt.foldl (fbmStep targetDurationMs trackName artistName) (b₁, s)).2
          = (inv.foldl (fbmInvStep targetDurationMs trackName artistName) (b₂, s)).2 := by
  intro yt inv hcorr
  induction hcorr with
  | nil => intro b₁ b₂ s hb; exact ⟨hb, rfl⟩
  | cons hc hrest ih =>
    rename_i y v yts invs
    intro b₁ b₂ s hb
    obtain ⟨hid, htitle, hdur⟩ := hc
    have hscore : ytScore targetDurationMs trackName artistName y
        = invScore targetDurationMs trackName artistName v := by
      rw [ytScore, invScore, hdur, htitle]
    rw [List.foldl_cons, List.foldl_cons]
    by_cases htol : 15000 < |ytDurationMs y - targetDurationMs|
    · rw [fbmStep, if_pos htol, fbmInvStep, if_pos (hdur ▸ htol)]
      exact ih b₁ b₂ s hb
    · rw [fbmStep, if_neg htol, fbmInvStep, if_neg (hdur ▸ htol), fbmScoreStep]
      by_cases hlt : s < ytScore targetDurationMs trackName artistName y
      · rw [if_pos hlt, if_pos (by rw [← hscore]; exact hlt), ← hscore]
        exact ih _ _ _ (by simp [mkYTResult, mkInvResult, hid])
      · rw [if_neg hlt, if_neg (by rw [← hscore]; exact hlt)]
        exact ih b₁ b₂ s hb

/-- Claim C8: on candidate lists presented in both provider shapes — same
titles, same video ids, and the mirror's `lengthSeconds` × 1000 equal to the
primary shape's parsed ISO-8601 duration — `findBestMatchInvidious` computes
the same score for each pair of corresponding candidates and selects the
same candidate (same video id) as `findBestMatch`. -/
theorem findBestMatchInvidious_refines_findBestMatch (targetDurationMs : ℤ)
    (trackName artistName : String) (yt : List YTVideo) (inv : List InvVideo)
    (hcorr : List.Forall₂ shapeCorresponds yt inv) :
    List.Forall₂ (fun y v => ytScore targetDurationMs trackName artistName y
      = invScore targetDurationMs trackName artistName v) yt inv
    ∧ (findBestMatch yt targetDurationMs trackName artistName).map MatchResult.videoId
      = (findBestMatchInvidious inv targetDurationMs trackName artistName).map MatchResult.videoId := by
  constructor
  · refine hcorr.imp ?_
    rintro y v ⟨hid, htitle, hdur⟩
    rw [ytScore, invScore, hdur, htitle]
  · exact (fbm_inv_lockstep targetDurationMs trackName artistName yt inv hcorr
      none none 0 rfl).1

/-- Witness for C8: a concrete two-candidate list in both shapes (durations
`PT3M20S` / 200 s and `PT2M` / 120 s); the scorers agree on scores and both
select video id `"w1"`. -/
theorem findBestMatchInvidious_refines_findBestMatch_witness :
    List.Forall₂ (fun y v => ytScore 200000 "t" "a" y = invScore 200000 "t" "a" v)
      [⟨"w1", "PT3M20S", "T1", "c1", none, none⟩, ⟨"w2", "PT2M", "T2", "c2", none, none⟩]
      [⟨"w1", "T1", 200, "c1"⟩, ⟨"w2", "T2", 120, "c2"⟩]
    ∧ (findBestMatch [⟨"w1", "PT3M20S", "T1", "c1", none, none⟩,
        ⟨"w2", "PT2M", "T2", "c2", none, none⟩] 200000 "t" "a").map MatchResult.videoId
      = (findBestMatchInvidious [⟨"w1", "T1", 200, "c1"⟩, ⟨"w2", "T2", 120, "c2"⟩]
          200000 "t" "a").map MatchResult.videoId :=
  findBestMatchInvidious_refines_findBestMatch 200000 "t" "a"
    [⟨"w1", "PT3M20S", "T1", "c1", none, none⟩, ⟨"w2", "PT2M", "T2", "c2", none, none⟩]
    [⟨"w1", "T1", 200, "c1"⟩, ⟨"w2", "T2", 120, "c2"⟩]
    (by refine List.Forall₂.cons ⟨rfl, rfl, by decide⟩ (List.Forall₂.cons ⟨rfl, rfl, by decide⟩ List.Forall₂.nil))

/-! ### C3: behavior of the duration parser -/

theorem findPT_eq_none_of_not_occurs :
    ∀ cs : List Char, occursIn ['P', 'T'] cs = false → findPT cs = none := by
  intro cs
  induction cs with
  | nil => intro _; rfl
  | cons c rest ih =>
    intro h
    rw [occursIn, Bool.or_eq_false_iff] at h
    rw [findPT, if_neg, ih h.2]
    rintro ⟨rfl, hhead⟩
    rcases rest with _ | ⟨r, rest'⟩
    · simp at hhead
    · simp only [List.head?_cons, Option.some.injEq] at hhead
      subst hhead
      simp [matchesAt] at h

theorem spanDigits_append (ds : List Char) (c : Char) (t : List Char)
    (hds : ∀ d ∈ ds, d.isDigit = true) (hc : c.isDigit = false) :
    spanDigits (ds ++ c :: t) = (ds, c :: t) := by
  induction ds with
  | nil => rw [List.nil_append, spanDigits, if_neg (by rw [hc]; exact Bool.false_ne_true)]
  | cons d ds' ih =>
    have hd : d.isDigit = true := hds d (by simp)
    rw [List.cons_append, spanDigits, if_pos hd,
      ih (fun x hx => hds x (List.mem_cons_of_mem _ hx))]

theorem matchComp_hit (letter : Char) (ds : List Char) (t : List Char)
    (hne : ds ≠ []) (hds : ∀ d ∈ ds, d.isDigit = true) (hletter : letter.isDigit = false) :
    matchComp letter (ds ++ letter :: t) = (some (digitsToNat ds), t) := by
  rw [matchComp, spanDigits_append ds letter t hds hletter]
  exact if_pos ⟨rfl, hne⟩

/-- Counterexample to claim C3: `"XPT1H"` is not of the ISO-8601 subset form
`PT[nH][nM][nS]` (it does not even start with `PT`), yet the parser returns
3600000 rather than 0 — the JS regex is unanchored, so it matches the `PT1H`
occurring at index 1. -/
theorem parseISO8601Duration_malformed_nonzero :
    parseISO8601Duration "XPT1H" = 3600000 ∧ (3600000 : Nat) ≠ 0 := by
  exact ⟨by decide, by decide⟩

/-- Claim C3 as amended: the parser scans for the first occurrence of the
literal `PT` anywhere in the input and returns
`(H*3600 + M*60 + S) * 1000` milliseconds from the digit components found
immediately after it, absent components counting as 0; a string with no `PT`
occurrence parses to 0 (but a malformed string containing `PT` may parse to
a nonzero value); in particular `"PT4M13S"` parses to 253000 ms, `"PT1H"` to
3600000 ms and `"PT"` to 0. -/
theorem parseISO8601Duration_unanchored_spec :
    (∀ s : String, occursIn ['P', 'T'] s.data = false → parseISO8601Duration s = 0)
    ∧ (∀ ds1 ds2 ds3 : List Char, ds1 ≠ [] → ds2 ≠ [] → ds3 ≠ [] →
        (∀ d ∈ ds1, d.isDigit = true) → (∀ d ∈ ds2, d.isDigit = true) →
        (∀ d ∈ ds3, d.isDigit = true) →
        parseISO8601Duration
          (String.mk ('P' :: 'T' :: (ds1 ++ 'H' :: (ds2 ++ 'M' :: (ds3 ++ ['S'])))))
          = (digitsToNat ds1 * 3600 + digitsToNat ds2 * 60 + digitsToNat ds3) * 1000)
    ∧ parseISO8601Duration "PT4M13S" = 253000
    ∧ parseISO8601Duration "PT1H" = 3600000
    ∧ parseISO8601Duration "PT" = 0 := by
  refine ⟨?_, ?_, by decide, by decide, by decide⟩
  · intro s h
    rw [parseISO8601Duration, findPT_eq_none_of_not_occurs s.data h]
  · intro ds1 ds2 ds3 h1 h2 h3 hd1 hd2 hd3
    have hfind : findPT ('P' :: 'T' :: (ds1 ++ 'H' :: (ds2 ++ 'M' :: (ds3 ++ ['S']))))
        = some (ds1 ++ 'H' :: (ds2 ++ 'M' :: (ds3 ++ ['S']))) := by
      rw [findPT, if_pos ⟨rfl, rfl⟩]
      rfl
    rw [parseISO8601Duration]
    show (match findPT ('P' :: 'T' :: (ds1 ++ 'H' :: (ds2 ++ 'M' :: (ds3 ++ ['S'])))) with
      | none => 0
      | some rest =>
        let h := matchComp 'H' rest
        let m := matchComp 'M' h.2
        let s := matchComp 'S' m.2
        (h.1.getD 0 * 3600 + m.1.getD 0 * 60 + s.1.getD 0) * 1000) = _
    rw [hfind]
    simp only
    rw [matchComp_hit 'H' ds1 _ h1 hd1 (by decide)]
    simp only
    rw [matchComp_hit 'M' ds2 _ h2 hd2 (by decide)]
    simp only
    rw [show ds3 ++ ['S'] = ds3 ++ 'S' :: ([] : List Char) from rfl,
      matchComp_hit 'S' ds3 _ h3 hd3 (by decide)]
    simp [Option.getD]

/-- Witness for the amended C3: `"ABC"` contains no `PT` and parses to 0;
`"PT1H2M3S"` parses to `(1*3600 + 2*60 + 3) * 1000 = 3723000` ms. -/
theorem parseISO8601Duration_unanchored_spec_witness :
    parseISO8601Duration "ABC" = 0 ∧ parseISO8601Duration "PT1H2M3S" = 3723000 := by
  constructor
  · exact parseISO8601Duration_unanchored_spec.1 "ABC" (by decide)
  · have h := parseISO8601Duration_unanchored_spec.2.1 ['1'] ['2'] ['3']
      (by decide) (by decide) (by decide) (by decide) (by decide) (by decide)
    exact h

/-! ### The API key pool (`getCurrentApiKey`, `rotateApiKey`) -/

/-- The key-pool state held on the service instance: `this.apiKeys` (the
ordered list loaded from the environment) and `this.currentKeyIndex`
(0 at construction). -/
structure KeyPoolState where
  apiKeys : List String
  currentKeyIndex : Nat
  deriving DecidableEq, Repr

/-- Source `getCurrentApiKey()`: `null` on an empty pool, otherwise
`this.apiKeys[this.currentKeyIndex]` (JS indexing — `undefined`, here
`none`, when the index is out of bounds). -/
def getCurrentApiKey (st : KeyPoolState) : Option String :=
  if st.apiKeys.length = 0 then none
  else st.apiKeys[st.currentKeyIndex]?

/-- Source `rotateApiKey()`: a no-op returning `false` when the pool has at most
one key, otherwise advance the cursor by one modulo the pool size and
return `true`. -/
def rotateApiKey (st : KeyPoolState) : Bool × KeyPoolState :=
  if st.apiKeys.length ≤ 1 then (false, st)
  else (true, { st with currentKeyIndex := (st.currentKeyIndex + 1) % st.apiKeys.length })

/-- The pool state at construction (`currentKeyIndex = 0`). -/
def initialPool (keys : List String) : KeyPoolState := ⟨keys, 0⟩

/-- An externally observable key-pool operation: a `getCurrentApiKey()`
read or a `rotateApiKey()` call. -/
inductive PoolOp where
  | readCurrent : PoolOp
  | rotate : PoolOp
  deriving DecidableEq, Repr

/-- State after one pool operation (reads leave the state unchanged). -/
def applyPoolOp (st : KeyPoolState) : PoolOp → KeyPoolState
  | .readCurrent => st
  | .rotate => (rotateApiKey st).2

/-- State after a sequence of pool operations. -/
def runPoolOps (st : KeyPoolState) (ops : List PoolOp) : KeyPoolState :=
  ops.foldl applyPoolOp st

/-- Iterating `rotateApiKey` `k` times. -/
def iterRotate (st : KeyPoolState) : Nat → KeyPoolState
  | 0 => st
  | k + 1 => (rotateApiKey (iterRotate st k)).2

theorem rotateApiKey_apiKeys (st : KeyPoolState) : (rotateApiKey st).2.apiKeys = st.apiKeys := by
  rw [rotateApiKey]
  split <;> rfl

theorem rotateApiKey_cursor_lt (st : KeyPoolState) (h : st.currentKeyIndex < st.apiKeys.length) :
    (rotateApiKey st).2.currentKeyIndex < (rotateApiKey st).2.apiKeys.length := by
  rw [rotateApiKey]
  split
  · exact h
  · rename_i hgt
    simpa using Nat.mod_lt _ (by omega)

theorem applyPoolOp_apiKeys (st : KeyPoolState) (op : PoolOp) :
    (applyPoolOp st op).apiKeys = st.apiKeys := by
  cases op
  · rfl
  · exact rotateApiKey_apiKeys st

theorem applyPoolOp_cursor_lt (st : KeyPoolState) (op : PoolOp)
    (h : st.currentKeyIndex < st.apiKeys.length) :
    (applyPoolOp st op).currentKeyIndex < (applyPoolOp st op).apiKeys.length := by
  cases op
  · exact h
  · exact rotateApiKey_cursor_lt st h

theorem runPoolOps_cursor_lt (ops : List PoolOp) :
    ∀ st : KeyPoolState, st.currentKeyIndex < st.apiKeys.length →
      (runPoolOps st ops).currentKeyIndex < (runPoolOps st ops).apiKeys.length := by
  induction ops with
  | nil => exact fun st h => h
  | cons op rest ih =>
    intro st h
    exact ih (applyPoolOp st op) (applyPoolOp_cursor_lt st op h)

theorem runPoolOps_apiKeys (ops : List PoolOp) :
    ∀ st : KeyPoolState, (runPoolOps st ops).apiKeys = st.apiKeys := by
  induction ops with
  | nil => exact fun _ => rfl
  | cons op rest ih =>
    intro st
    rw [runPoolOps, List.foldl_cons, ← runPoolOps, ih, applyPoolOp_apiKeys]

/-- Claim C6: starting from construction (`cursor = 0`), after any sequence
of `getCurrentApiKey`/`rotateApiKey` operations the cursor satisfies
`cursor < len(keys)` whenever the pool is nonempty (so `getCurrentApiKey`
returns a key); `rotateApiKey` on a pool with more than one key returns
`true` and advances the cursor by one position modulo the pool size, and on
a pool with at most one key returns `false` leaving the state unchanged. -/
theorem keyPool_cursor_invariant (keys : List String) (ops : List PoolOp) :
    (0 < keys.length →
      (runPoolOps (initialPool keys) ops).currentKeyIndex < keys.length
      ∧ ∃ k, getCurrentApiKey (runPoolOps (initialPool keys) ops) = some k)
    ∧ (∀ st : KeyPoolState, 1 < st.apiKeys.length →
        rotateApiKey st
          = (true, { st with currentKeyIndex := (st.currentKeyIndex + 1) % st.apiKeys.length }))
    ∧ (∀ st : KeyPoolState, st.apiKeys.length ≤ 1 → rotateApiKey st = (false, st)) := by
  refine ⟨?_, ?_, ?_⟩
  · intro hpos
    have hkeys := runPoolOps_apiKeys ops (initialPool keys)
    have hlt := runPoolOps_cursor_lt ops (initialPool keys) (by simpa [initialPool] using hpos)
    rw [hkeys] at hlt
    refine ⟨hlt, ?_⟩
    rw [getCurrentApiKey, if_neg (by rw [hkeys]; omega), hkeys]
    exact ⟨_, List.getElem?_eq_getElem hlt⟩
  · intro st h
    rw [rotateApiKey, if_neg (by omega)]
  · intro st h
    rw [rotateApiKey, if_pos h]

/-- Witness for C6: two rotations on a three-key pool land the cursor on
index 2 with key `"k3"` current; `rotateApiKey` behaves as stated on
concrete pools of sizes 2 and 1. -/
theorem keyPool_cursor_invariant_witness :
    ((runPoolOps (initialPool ["k1", "k2", "k3"]) [PoolOp.rotate, PoolOp.rotate]).currentKeyIndex < 3
      ∧ ∃ k, getCurrentApiKey
          (runPoolOps (initialPool ["k1", "k2", "k3"]) [PoolOp.rotate, PoolOp.rotate]) = some k)
    ∧ rotateApiKey ⟨["a", "b"], 1⟩ = (true, ⟨["a", "b"], 0⟩)
    ∧ rotateApiKey ⟨["a"], 0⟩ = (false, ⟨["a"], 0⟩) := by
  refine ⟨(keyPool_cursor_invariant ["k1", "k2", "k3"] [PoolOp.rotate, PoolOp.rotate]).1
    (by decide), ?_, ?_⟩
  · have h := (keyPool_cursor_invariant ["k1", "k2", "k3"] []).2.1 ⟨["a", "b"], 1⟩ (by decide)
    simpa using h
  · have h := (keyPool_cursor_invariant ["k1", "k2", "k3"] []).2.2 ⟨["a"], 0⟩ (by decide)
    simpa using h

theorem iterRotate_apiKeys (st : KeyPoolState) : ∀ k, (iterRotate st k).apiKeys = st.apiKeys := by
  intro k
  induction k with
  | zero => rfl
  | succ k ih => rw [iterRotate, rotateApiKey_apiKeys, ih]

theorem iterRotate_cursor (st : KeyPoolState) (hmulti : 1 < st.apiKeys.length)
    (hcur : st.currentKeyIndex < st.apiKeys.length) :
    ∀ k, (iterRotate st k).currentKeyIndex = (st.currentKeyIndex + k) % st.apiKeys.length := by
  intro k
  induction k with
  | zero => exact (Nat.mod_eq_of_lt hcur).symm
  | succ k ih =>
    rw [iterRotate, rotateApiKey,
      if_neg (by rw [iterRotate_apiKeys]; omega)]
    simp only [iterRotate_apiKeys, ih]
    rw [Nat.mod_add_mod, Nat.add_assoc]

/-- During one query the loop advances the cursor one rotation per quota
failure; within the first `len(keys)` rotations no cursor position repeats,
so each key is tried at most once per query. -/
theorem iterRotate_cursor_injective (st : KeyPoolState)
    (hcur : st.currentKeyIndex < st.apiKeys.length) :
    ∀ i j, i < st.apiKeys.length → j < st.apiKeys.length →
      (iterRotate st i).currentKeyIndex = (iterRotate st j).currentKeyIndex → i = j := by
  intro i j hi hj heq
  by_cases hmulti : 1 < st.apiKeys.length
  · rw [iterRotate_cursor st hmulti hcur i, iterRotate_cursor st hmulti hcur j] at heq
    have : i % st.apiKeys.length = j % st.apiKeys.length :=
      Nat.ModEq.add_left_cancel' st.currentKeyIndex heq
    rwa [Nat.mod_eq_of_lt hi, Nat.mod_eq_of_lt hj] at this
  · omega

/-! ### The resolver (`searchTrack`) over explicit service state -/

/-- A track query as the batch pipeline passes it: `name`, `artist`,
`duration_ms`. -/
structure TrackQuery where
  name : String
  artist : String
  duration_ms : ℤ
  deriving DecidableEq, Repr

/-- A row of the durable `youtube_cache` table:
`(track_name, artist_name, duration_ms)` plus the cached match
(`video_id`, `video_title`, `video_duration`, `thumbnail_url`,
`channel_title`, collected here as a `MatchResult`). -/
structure DbRow where
  track_name : String
  artist_name : String
  duration_ms : ℤ
  result : MatchResult
  deriving DecidableEq, Repr

/-- PostgreSQL `ILIKE` for patterns without wildcard characters (the only
shape the service issues): case-insensitive equality. -/
def ilikeMatch (pattern text : String) : Bool := jsToLower pattern == jsToLower text

/-- Source `checkDatabaseCache(trackName, artistName)`: select a row of
`youtube_cache` whose `artist_name` and `track_name` both `ILIKE`-match the
query, and rebuild the `MatchResult` from it; `none` on no row (or any
database error). -/
def checkDatabaseCache (db : List DbRow) (trackName artistName : String) : Option MatchResult :=
  (db.find? (fun row => ilikeMatch artistName row.artist_name
      && ilikeMatch trackName row.track_name)).map (fun row => row.result)

/-- Source `saveToDatabaseCache(trackName, artistName, durationMs, result)`:
insert a row; a duplicate-key rejection is swallowed, which this model
renders by keeping the insert unconditional (lookups read the first
matching row, so a duplicate row is unobservable). -/
def saveToDatabaseCache (db : List DbRow) (trackName artistName : String)
    (durationMs : ℤ) (result : MatchResult) : List DbRow :=
  db ++ [⟨trackName, artistName, durationMs, result⟩]

/-- The mutable state `searchTrack` touches: the in-memory cache `Map`
(most recent binding first), the key pool, and the durable table. -/
structure SearchState where
  cache : List (String × MatchResult)
  pool : KeyPoolState
  db : List DbRow
  deriving DecidableEq, Repr

/-- The in-memory cache key: `` `${artistName} - ${trackName}`.toLowerCase() ``. -/
def cacheKey (artistName trackName : String) : String :=
  jsToLower (artistName ++ " - " ++ trackName)

/-- Outcome of one `searchWithYouTube` call, as the `searchTrack` retry loop
classifies it: a scored match, a successful call with no usable result
(`null`), a quota-exceeded error, or any other error (network/HTTP). -/
inductive ProviderOutcome where
  | success : MatchResult → ProviderOutcome
  | noResult : ProviderOutcome
  | quotaExceeded : ProviderOutcome
  | transportError : ProviderOutcome
  deriving DecidableEq, Repr

/-- The `while (attempts < maxAttempts)` retry loop of `searchTrack`.
`provider n` abstracts the `n`-th `searchWithYouTube` call of this query;
`fuel` is `maxAttempts - attempts` and `calls` counts provider calls made so
far. On success the result is written to the in-memory cache and the durable
table; on `quotaExceeded` the key rotates and the loop retries iff the
rotation succeeded; any other error ends the query with `null`. Returns
`(result, total provider calls, final state)`. -/
def searchTrackLoop (provider : Nat → ProviderOutcome) (ck : String) (q : TrackQuery) :
    Nat → Nat → SearchState → Option MatchResult × Nat × SearchState
  | 0, calls, st => (none, calls, st)
  | fuel + 1, calls, st =>
    match provider calls with
    | .success m =>
        (some m, calls + 1,
          { st with cache := (ck, m) :: st.cache
                    db := saveToDatabaseCache st.db q.name q.artist q.duration_ms m })
    | .noResult => (none, calls + 1, st)
    | .transportError => (none, calls + 1, st)
    | .quotaExceeded =>
        let r := rotateApiKey st.pool
        if r.1 then searchTrackLoop provider ck q fuel (calls + 1) { st with pool := r.2 }
        else (none, calls + 1, st)

/-- Source `searchTrack(trackName, artistName, durationMs)`: in-memory cache
lookup, then durable cache lookup (populating the in-memory tier on a hit),
then — when a key is configured — the provider retry loop with
`maxAttempts = apiKeys.length`. Returns `(result, provider calls made,
final state)`. -/
def searchTrack (provider : Nat → ProviderOutcome) (q : TrackQuery) (st : SearchState) :
    Option MatchResult × Nat × SearchState :=
  let ck := cacheKey q.artist q.name
  match List.lookup ck st.cache with
  | some r => (some r, 0, st)
  | none =>
    match checkDatabaseCache st.db q.name q.artist with
    | some r => (some r, 0, { st with cache := (ck, r) :: st.cache })
    | none =>
      match getCurrentApiKey st.pool with
      | none => (none, 0, st)
      | some k =>
        if k = "" then (none, 0, st)
        else searchTrackLoop provider ck q st.pool.apiKeys.length 0 st

/-! ### C2: exhausting the key pool -/

/-- A provider on which every call reports quota exhaustion. -/
def quotaProvider : Nat → ProviderOutcome := fun _ => ProviderOutcome.quotaExceeded

theorem searchTrackLoop_quota_single (ck : String) (q : TrackQuery) (st : SearchState)
    (h : st.pool.apiKeys.length ≤ 1) (fuel calls : Nat) (hf : 1 ≤ fuel) :
    searchTrackLoop quotaProvider ck q fuel calls st = (none, calls + 1, st) := by
  rcases fuel with _ | f
  · omega
  · show (let r := rotateApiKey st.pool
      if r.1 then searchTrackLoop quotaProvider ck q f (calls + 1) { st with pool := r.2 }
      else (none, calls + 1, st)) = (none, calls + 1, st)
    rw [rotateApiKey, if_pos h]
    rfl

theorem searchTrackLoop_quota_multi (ck : String) (q : TrackQuery) :
    ∀ (fuel calls : Nat) (st : SearchState), 2 ≤ st.pool.apiKeys.length →
      (searchTrackLoop quotaProvider ck q fuel calls st).1 = none
      ∧ (searchTrackLoop quotaProvider ck q fuel calls st).2.1 = calls + fuel := by
  intro fuel
  induction fuel with
  | zero => exact fun calls st _ => ⟨rfl, rfl⟩
  | succ f ih =>
    intro calls st hmulti
    have hrot : rotateApiKey st.pool
        = (true, { st.pool with
            currentKeyIndex := (st.pool.currentKeyIndex + 1) % st.pool.apiKeys.length }) := by
      rw [rotateApiKey, if_neg (by omega)]
    have hred : searchTrackLoop quotaProvider ck q (f + 1) calls st
        = searchTrackLoop quotaProvider ck q f (calls + 1)
            { st with pool := { st.pool with
                currentKeyIndex := (st.pool.currentKeyIndex + 1) % st.pool.apiKeys.length } } := by
      show (let r := rotateApiKey st.pool
        if r.1 then searchTrackLoop quotaProvider ck q f (calls + 1) { st with pool := r.2 }
        else (none, calls + 1, st)) = _
      rw [hrot]
      rfl
    rw [hred]
    obtain ⟨h1, h2⟩ := ih (calls + 1)
      { st with pool := { st.pool with
          currentKeyIndex := (st.pool.currentKeyIndex + 1) % st.pool.apiKeys.length } } hmulti
    exact ⟨h1, by omega⟩

/-- Claim C2: with `N ≥ 1` configured keys (none empty, cursor in range,
both cache tiers missing) and every provider call reporting quota
exhaustion, a single `searchTrack` call makes exactly `N` provider calls
and returns `none`; when `N = 1`, `rotateApiKey` fails (`false`, state
unchanged) and exactly 1 call occurs; and within the first `N` rotations no
cursor position repeats, so each key is tried at most once. -/
theorem searchTrack_quota_exhaustion (q : TrackQuery) (st : SearchState) (N : Nat)
    (hN : 1 ≤ N) (hlen : st.pool.apiKeys.length = N)
    (hcur : st.pool.currentKeyIndex < N)
    (hkeys : ∀ k ∈ st.pool.apiKeys, k ≠ "")
    (hmem : List.lookup (cacheKey q.artist q.name) st.cache = none)
    (hdb : checkDatabaseCache st.db q.name q.artist = none) :
    (searchTrack quotaProvider q st).1 = none
    ∧ (searchTrack quotaProvider q st).2.1 = N
    ∧ (N = 1 → rotateApiKey st.pool = (false, st.pool)
        ∧ (searchTrack quotaProvider q st).2.1 = 1)
    ∧ (∀ i j, i < N → j < N →
        (iterRotate st.pool i).currentKeyIndex = (iterRotate st.pool j).currentKeyIndex →
        i = j) := by
  have hcur' : st.pool.currentKeyIndex < st.pool.apiKeys.length := by omega
  have hkey : getCurrentApiKey st.pool
      = some (st.pool.apiKeys.get ⟨st.pool.currentKeyIndex, hcur'⟩) := by
    rw [getCurrentApiKey, if_neg (by omega), List.getElem?_eq_getElem hcur',
      List.get_eq_getElem]
  have hne : st.pool.apiKeys.get ⟨st.pool.currentKeyIndex, hcur'⟩ ≠ "" :=
    hkeys _ (List.get_mem _ _ _)
  have hred : searchTrack quotaProvider q st
      = searchTrackLoop quotaProvider (cacheKey q.artist q.name) q
          st.pool.apiKeys.length 0 st := by
    rw [searchTrack]
    simp only [hmem, hdb, hkey]
    rw [if_neg hne]
  rcases Nat.lt_or_ge N 2 with hsmall | hmulti
  · have hN1 : N = 1 := by omega
    have hloop := searchTrackLoop_quota_single (cacheKey q.artist q.name) q st
      (by omega) st.pool.apiKeys.length 0 (by omega)
    refine ⟨?_, ?_, ?_, ?_⟩
    · rw [hred, hloop]
    · rw [hred, hloop]
      show 0 + 1 = N
      omega
    · intro _
      refine ⟨by rw [rotateApiKey, if_pos (by omega)], ?_⟩
      rw [hred, hloop]
    · intro i j hi hj _
      omega
  · have hloop := searchTrackLoop_quota_multi (cacheKey q.artist q.name) q
      st.pool.apiKeys.length 0 st (by omega)
    refine ⟨?_, ?_, ?_, ?_⟩
    · rw [hred]; exact hloop.1
    · rw [hred, hloop.2]; omega
    · intro h1; omega
    · intro i j hi hj heq
      exact iterRotate_cursor_injective st.pool hcur' i j (by omega) (by omega) heq

/-- Witness for C2: a two-key pool under constant quota errors makes
exactly 2 calls and returns `none`; a one-key pool cannot rotate and makes
exactly 1 call. -/
theorem searchTrack_quota_exhaustion_witness :
    (searchTrack quotaProvider ⟨"T", "A", 1000⟩ ⟨[], ⟨["k1", "k2"], 0⟩, []⟩).1 = none
    ∧ (searchTrack quotaProvider ⟨"T", "A", 1000⟩ ⟨[], ⟨["k1", "k2"], 0⟩, []⟩).2.1 = 2
    ∧ (rotateApiKey (⟨["k1"], 0⟩ : KeyPoolState) = (false, ⟨["k1"], 0⟩)
        ∧ (searchTrack quotaProvider ⟨"T", "A", 1000⟩ ⟨[], ⟨["k1"], 0⟩, []⟩).2.1 = 1) := by
  refine ⟨?_, ?_, ?_⟩
  · exact (searchTrack_quota_exhaustion ⟨"T", "A", 1000⟩ ⟨[], ⟨["k1", "k2"], 0⟩, []⟩ 2
      (by decide) (by decide) (by decide) (by decide) (by decide) (by decide)).1
  · exact (searchTrack_quota_exhaustion ⟨"T", "A", 1000⟩ ⟨[], ⟨["k1", "k2"], 0⟩, []⟩ 2
      (by decide) (by decide) (by decide) (by decide) (by decide) (by decide)).2.1
  · exact (searchTrack_quota_exhaustion ⟨"T", "A", 1000⟩ ⟨[], ⟨["k1"], 0⟩, []⟩ 1
      (by decide) (by decide) (by decide) (by decide) (by decide) (by decide)).2.2.1 rfl

/-! ### C7 and C10: cache-key normalization -/

theorem jsToLower_append (a b : String) : jsToLower (a ++ b) = jsToLower a ++ jsToLower b := by
  obtain ⟨la⟩ := a
  obtain ⟨lb⟩ := b
  show String.mk ((la ++ lb).map Char.toLower)
    = String.mk (la.map Char.toLower) ++ String.mk (lb.map Char.toLower)
  rw [List.map_append]
  rfl

/-- Claim C7: cache lookup is invariant under letter-case changes of the
inputs. Two queries whose artist and track names agree up to letter case
(equal lowercasings) derive the same in-memory cache key — so the in-memory
`Map` lookup reads the same entry — and the durable-tier
`checkDatabaseCache` (case-insensitive `ILIKE` on `(artist_name,
track_name)`) selects the same stored row. -/
theorem cacheLookup_case_insensitive (a₁ t₁ a₂ t₂ : String)
    (cache : List (String × MatchResult)) (db : List DbRow)
    (ha : jsToLower a₁ = jsToLower a₂) (ht : jsToLower t₁ = jsToLower t₂) :
    cacheKey a₁ t₁ = cacheKey a₂ t₂
    ∧ List.lookup (cacheKey a₁ t₁) cache = List.lookup (cacheKey a₂ t₂) cache
    ∧ checkDatabaseCache db t₁ a₁ = checkDatabaseCache db t₂ a₂ := by
  have hkey : cacheKey a₁ t₁ = cacheKey a₂ t₂ := by
    rw [cacheKey, cacheKey, jsToLower_append, jsToLower_append, jsToLower_append,
      jsToLower_append, ha, ht]
  refine ⟨hkey, by rw [hkey], ?_⟩
  have hpred : (fun row : DbRow => ilikeMatch a₁ row.artist_name && ilikeMatch t₁ row.track_name)
      = (fun row : DbRow => ilikeMatch a₂ row.artist_name && ilikeMatch t₂ row.track_name) := by
    funext row
    simp only [ilikeMatch, ha, ht]
  rw [checkDatabaseCache, checkDatabaseCache, hpred]

/-- Witness for C7: `("Artist", "Track")` and `("artist", "track")` derive
the same key, read the same in-memory entry, and select the same durable
row. -/
theorem cacheLookup_case_insensitive_witness :
    cacheKey "Artist" "Track" = cacheKey "artist" "track"
    ∧ List.lookup (cacheKey "Artist" "Track")
        [(cacheKey "artist" "track", (⟨"v", "t", 0, none, "c"⟩ : MatchResult))]
      = List.lookup (cacheKey "artist" "track")
        [(cacheKey "artist" "track", (⟨"v", "t", 0, none, "c"⟩ : MatchResult))]
    ∧ checkDatabaseCache [⟨"Track", "Artist", 0, ⟨"v", "t", 0, none, "c"⟩⟩] "Track" "Artist"
      = checkDatabaseCache [⟨"Track", "Artist", 0, ⟨"v", "t", 0, none, "c"⟩⟩] "track" "artist" :=
  cacheLookup_case_insensitive "Artist" "Track" "artist" "track"
    [(cacheKey "artist" "track", ⟨"v", "t", 0, none, "c"⟩)]
    [⟨"Track", "Artist", 0, ⟨"v", "t", 0, none, "c"⟩⟩] (by decide) (by decide)

/-- Claim C10: the in-memory cache-key derivation
`` `${artist} - ${track}`.toLowerCase() `` is not injective: the distinct
queries (artist `"A - B"`, track `"C"`) and (artist `"A"`, track `"B - C"`)
derive the same key, and concretely — after the first query is resolved
through the provider and cached, `searchTrack` answers the second query
from the in-memory cache with the first query's result (even though every
further provider call would fail with quota exhaustion). -/
theorem cacheKey_not_injective :
    cacheKey "A - B" "C" = cacheKey "A" "B - C"
    ∧ (("A - B", "C") : String × String) ≠ ("A", "B - C")
    ∧ (searchTrack (fun _ => ProviderOutcome.success ⟨"vid0", "t0", 1000, none, "ch"⟩)
        ⟨"C", "A - B", 1000⟩ ⟨[], ⟨["k"], 0⟩, []⟩).1 = some ⟨"vid0", "t0", 1000, none, "ch"⟩
    ∧ (searchTrack quotaProvider ⟨"B - C", "A", 1000⟩
        (searchTrack (fun _ => ProviderOutcome.success ⟨"vid0", "t0", 1000, none, "ch"⟩)
          ⟨"C", "A - B", 1000⟩ ⟨[], ⟨["k"], 0⟩, []⟩).2.2).1
      = some ⟨"vid0", "t0", 1000, none, "ch"⟩ := by
  exact ⟨by decide, by decide, by decide, by decide⟩

/-! ### The batch pipeline (`searchTracks`) -/

/-- A track annotated by the batch pipeline: the original query spread
together with `youtubeId`, `youtubeTitle`, `youtubeThumbnail` (each
`match?.field || null`) and `matched = !!match`. -/
structure ResolvedTrack where
  query : TrackQuery
  youtubeId : Option String
  youtubeTitle : Option String
  youtubeThumbnail : Option String
  matched : Bool
  deriving DecidableEq, Repr

/-- JS `x || null` on an optionally-present string: `null` when the value
is absent or the empty string. -/
def jsStrOrNull : Option String → Option String
  | none => none
  | some s => if s = "" then none else some s

/-- The entry `searchTracks` pushes for one query given the resolver's
answer. -/
def annotate (t : TrackQuery) (m : Option MatchResult) : ResolvedTrack :=
  { query := t
    youtubeId := jsStrOrNull (m.map MatchResult.videoId)
    youtubeTitle := jsStrOrNull (m.map MatchResult.title)
    youtubeThumbnail := jsStrOrNull (m.bind MatchResult.thumbnailUrl)
    matched := m.isSome }

/-- The observable effects of one pass of the `searchTracks` loop, in
program order: an `onProgress(current, total)` invocation, the resolution
of a query, or an `await this.sleep(ms)` delay. -/
inductive BatchEvent where
  | progress : Nat → Nat → BatchEvent
  | resolve : TrackQuery → BatchEvent
  | sleep : Nat → BatchEvent
  deriving DecidableEq, Repr

/-- The `searchTracks` loop from index `i` onwards: for each query, report
progress (when a callback was supplied), resolve through `searchTrack`
(threading the service state), push the annotated entry, and sleep 100 ms
unless the query was the last (`i < tracks.length - 1`, i.e. the remaining
list is nonempty). `provider j` is the provider oracle for the `j`-th
query. Returns the entries, the event trace, and the final state. -/
def searchTracksGo (provider : Nat → Nat → ProviderOutcome) (hasCb : Bool) (total : Nat) :
    Nat → List TrackQuery → SearchState →
      List ResolvedTrack × List BatchEvent × SearchState
  | _, [], st => ([], [], st)
  | i, t :: ts, st =>
    let res := searchTrack (provider i) t st
    let rest := searchTracksGo provider hasCb total (i + 1) ts res.2.2
    (annotate t res.1 :: rest.1,
      (if hasCb then [BatchEvent.progress (i + 1) total] else [])
        ++ BatchEvent.resolve t
          :: (if ts.isEmpty then rest.2.1 else BatchEvent.sleep 100 :: rest.2.1),
      rest.2.2)

/-- Source `searchTracks(tracks, onProgress)`; `hasCb` records whether an
`onProgress` callback was supplied. -/
def searchTracks (provider : Nat → Nat → ProviderOutcome) (hasCb : Bool)
    (tracks : List TrackQuery) (st : SearchState) :
    List ResolvedTrack × List BatchEvent × SearchState :=
  searchTracksGo provider hasCb tracks.length 0 tracks st

/-- The service state when the batch pipeline reaches query `k` (the state
left by resolving the first `k` queries). -/
def stateBeforeQuery (provider : Nat → Nat → ProviderOutcome) (hasCb : Bool)
    (tracks : List TrackQuery) (st : SearchState) (k : Nat) : SearchState :=
  (searchTracksGo provider hasCb tracks.length 0 (tracks.take k) st).2.2

theorem searchTracksGo_length (provider : Nat → Nat → ProviderOutcome) (hasCb : Bool)
    (total : Nat) :
    ∀ (ts : List TrackQuery) (i : Nat) (st : SearchState),
      (searchTracksGo provider hasCb total i ts st).1.length = ts.length := by
  intro ts
  induction ts with
  | nil => intro i st; rfl
  | cons t ts ih =>
    intro i st
    simp only [searchTracksGo, List.length_cons, ih]

theorem searchTracksGo_results (provider : Nat → Nat → ProviderOutcome) (hasCb : Bool)
    (total : Nat) :
    ∀ (ts : List TrackQuery) (i : Nat) (st : SearchState) (k : Nat),
      ((searchTracksGo provider hasCb total i ts st).1)[k]?
        = (ts[k]?).map (fun t => annotate t
            ((searchTrack (provider (i + k)) t
              ((searchTracksGo provider hasCb total i (ts.take k) st).2.2)).1)) := by
  intro ts
  induction ts with
  | nil =>
    intro i st k
    simp [searchTracksGo]
  | cons t ts ih =>
    intro i st k
    rcases k with _ | k
    · simp [searchTracksGo, List.take_zero]
    · have harith : i + (k + 1) = i + 1 + k := by omega
      simp only [searchTracksGo, List.getElem?_cons_succ, List.take_succ_cons, harith]
      exact ih (i + 1) _ k

/-- Claim C4: for every query list (and any provider behavior and prior
state), `searchTracks` returns a list of the same length whose entry at
each position `k` is exactly the annotation of the query at position `k`
with the result `searchTrack` gives it from the state the pipeline carries
into that position — no outcome of one query removes, reorders or aborts
the entries of the others (the embedding is total: every provider failure
is a value, never an escaping exception) — and a query whose resolution
yields no match is annotated with `matched = false` and null `youtubeId`,
`youtubeTitle` and `youtubeThumbnail`. -/
theorem searchTracks_order_preserving (provider : Nat → Nat → ProviderOutcome) (hasCb : Bool)
    (tracks : List TrackQuery) (st : SearchState) :
    (searchTracks provider hasCb tracks st).1.length = tracks.length
    ∧ (∀ k, ((searchTracks provider hasCb tracks st).1)[k]?
        = (tracks[k]?).map (fun t => annotate t
            ((searchTrack (provider k) t (stateBeforeQuery provider hasCb tracks st k)).1)))
    ∧ (∀ t : TrackQuery, annotate t none
        = { query := t, youtubeId := none, youtubeTitle := none,
            youtubeThumbnail := none, matched := false }) := by
  refine ⟨searchTracksGo_length provider hasCb tracks.length tracks 0 st, ?_, fun t => rfl⟩
  intro k
  have h := searchTracksGo_results provider hasCb tracks.length tracks 0 st k
  simpa [searchTracks, stateBeforeQuery] using h

/-- The event trace of one pass of the loop (callback supplied): progress,
resolve, then a 100 ms sleep exactly when further queries remain. -/
theorem searchTracksGo_events_cons (provider : Nat → Nat → ProviderOutcome) (total i : Nat)
    (t : TrackQuery) (ts : List TrackQuery) (st : SearchState) :
    (searchTracksGo provider true total i (t :: ts) st).2.1
      = BatchEvent.progress (i + 1) total :: BatchEvent.resolve t ::
          (if ts.isEmpty then
            (searchTracksGo provider true total (i + 1) ts
              (searchTrack (provider i) t st).2.2).2.1
          else
            BatchEvent.sleep 100 ::
              (searchTracksGo provider true total (i + 1) ts
                (searchTrack (provider i) t st).2.2).2.1) := by
  show (if (true : Bool) then [BatchEvent.progress (i + 1) total] else []) ++
      BatchEvent.resolve t ::
        (if ts.isEmpty then
          (searchTracksGo provider true total (i + 1) ts
            (searchTrack (provider i) t st).2.2).2.1
        else
          BatchEvent.sleep 100 ::
            (searchTracksGo provider true total (i + 1) ts
              (searchTrack (provider i) t st).2.2).2.1) = _
  rw [if_pos rfl, List.singleton_append]

theorem searchTracksGo_events_length (provider : Nat → Nat → ProviderOutcome) (total : Nat) :
    ∀ (ts : List TrackQuery) (i : Nat) (st : SearchState),
      (searchTracksGo provider true total i ts st).2.1.length = 3 * ts.length - 1 := by
  intro ts
  induction ts with
  | nil => intro i st; rfl
  | cons t ts ih =>
    intro i st
    rw [searchTracksGo_events_cons]
    by_cases hts : ts.isEmpty = true
    · have hnil : ts = [] := List.isEmpty_iff.mp hts
      subst hnil
      rfl
    · have hpos : 0 < ts.length := by
        cases ts
        · simp at hts
        · simp
      rw [if_neg hts]
      simp only [List.length_cons, ih]
      omega

theorem searchTracksGo_events_get (provider : Nat → Nat → ProviderOutcome) (total : Nat) :
    ∀ (ts : List TrackQuery) (i : Nat) (st : SearchState) (k : Nat),
      ((searchTracksGo provider true total i ts st).2.1)[3 * k]?
          = (ts[k]?).map (fun _ => BatchEvent.progress (i + k + 1) total)
      ∧ ((searchTracksGo provider true total i ts st).2.1)[3 * k + 1]?
          = (ts[k]?).map (fun t => BatchEvent.resolve t)
      ∧ ((searchTracksGo provider true total i ts st).2.1)[3 * k + 2]?
          = (if k + 1 < ts.length then some (BatchEvent.sleep 100) else none) := by
  intro ts
  induction ts with
  | nil =>
    intro i st k
    refine ⟨?_, ?_, ?_⟩ <;> simp [searchTracksGo]
  | cons t ts ih =>
    intro i st k
    rw [searchTracksGo_events_cons]
    by_cases hts : ts.isEmpty = true
    · have hnil : ts = [] := List.isEmpty_iff.mp hts
      subst hnil
      rcases k with _ | k
      · refine ⟨by simp [searchTracksGo], by simp [searchTracksGo], by simp [searchTracksGo]⟩
      · have h3 : 3 * (k + 1) = 3 * k + 1 + 1 + 1 := by ring
        rw [h3]
        refine ⟨by simp [searchTracksGo], by simp [searchTracksGo], ?_⟩
        simp [searchTracksGo]
    · have hpos : 0 < ts.length := by
        cases ts
        · simp at hts
        · simp
      rw [if_neg hts]
      rcases k with _ | k
      · refine ⟨by simp, by simp, ?_⟩
        rw [if_pos (by simpa using hpos)]
        simp
      · have h3 : 3 * (k + 1) = 3 * k + 1 + 1 + 1 := by ring
        obtain ⟨ih1, ih2, ih3⟩ := ih (i + 1) ((searchTrack (provider i) t st).2.2) k
        rw [h3]
        refine ⟨?_, ?_, ?_⟩
        · rw [List.getElem?_cons_succ, List.getElem?_cons_succ, List.getElem?_cons_succ, ih1,
            List.getElem?_cons_succ]
          have harith : i + 1 + k + 1 = i + (k + 1) + 1 := by omega
          rw [harith]
        · rw [List.getElem?_cons_succ, List.getElem?_cons_succ, List.getElem?_cons_succ, ih2,
            List.getElem?_cons_succ]
        · rw [List.getElem?_cons_succ, List.getElem?_cons_succ, List.getElem?_cons_succ, ih3]
          simp only [List.length_cons]
          by_cases hk : k + 1 < ts.length
          · rw [if_pos hk, if_pos (by omega)]
          · rw [if_neg hk, if_neg (by omega)]

/-- Claim C9: with a progress callback supplied, the `searchTracks` event
trace — for every provider behavior and prior state, in particular
regardless of whether any query is answered from cache — consists of
exactly `3n - 1` events for `n ≥ 1` queries, laid out so that query `k`
(0-based) is preceded at trace position `3k` by `onProgress(k+1, n)` (the
1-indexed position and total count), resolved at position `3k+1`, and
followed at position `3k+2` by a fixed 100 ms delay exactly when another
query follows (`k+1 < n`, so no delay after the last query). -/
theorem searchTracks_progress_and_throttle (provider : Nat → Nat → ProviderOutcome)
    (tracks : List TrackQuery) (st : SearchState) :
    (searchTracks provider true tracks st).2.1.length = 3 * tracks.length - 1
    ∧ (∀ k, ((searchTracks provider true tracks st).2.1)[3 * k]?
        = (tracks[k]?).map (fun _ => BatchEvent.progress (k + 1) tracks.length))
    ∧ (∀ k, ((searchTracks provider true tracks st).2.1)[3 * k + 1]?
        = (tracks[k]?).map (fun t => BatchEvent.resolve t))
    ∧ (∀ k, ((searchTracks provider true tracks st).2.1)[3 * k + 2]?
        = (if k + 1 < tracks.length then some (BatchEvent.sleep 100) else none)) := by
  refine ⟨searchTracksGo_events_length provider tracks.length tracks 0 st, ?_, ?_, ?_⟩
  · intro k
    have h := (searchTracksGo_events_get provider tracks.length tracks 0 st k).1
    simpa [searchTracks] using h
  · intro k
    exact (searchTracksGo_events_get provider tracks.length tracks 0 st k).2.1
  · intro k
    exact (searchTracksGo_events_get provider tracks.length tracks 0 st k).2.2

end MixTape
